import Mathlib

/-!
Shallow embedding of the Front-GraphQL task-management core:
domain models (Todo, User), the simulated (mock) adapters backed by
localStorage, the remote GraphQL adapters, and the Zustand state stores.
Each definition is translated from the corresponding TypeScript source
file; asynchronous methods become pure functions from the awaited
repository outcome, and `new Date()` becomes an explicit `now` argument.
-/

namespace FrontGraphQL

/-- Dates are modelled as abstract timestamps. -/
abbrev Date := Nat

/-- Domain model for the Todo entity (src/domain/models/Todo.ts).
    `userId` and `updatedAt` are optional fields. -/
structure Todo where
  id : Int
  title : String
  completed : Bool
  userId : Option Int
  createdAt : Date
  updatedAt : Option Date
deriving Repr, DecidableEq

/-- CreateTodoInput from src/domain/models/Todo.ts: title plus optional
    completed and userId. -/
structure CreateTodoInput where
  title : String
  completed : Option Bool
  userId : Option Int
deriving Repr, DecidableEq

/-- UpdateTodoInput from src/domain/models/Todo.ts: id plus optional
    partial fields. -/
structure UpdateTodoInput where
  id : Int
  title : Option String
  completed : Option Bool
  userId : Option Int
deriving Repr, DecidableEq

/-- Domain model for the User entity (src/domain/models/User.ts). -/
structure User where
  id : Int
  name : String
  email : String
  createdAt : Date
  updatedAt : Option Date
deriving Repr, DecidableEq

/-- CreateUserInput from src/domain/models/User.ts. -/
structure CreateUserInput where
  name : String
  email : String
deriving Repr, DecidableEq

/-- UpdateUserInput from src/domain/models/User.ts: id plus optional
    name and email. -/
structure UpdateUserInput where
  id : Int
  name : Option String
  email : Option String
deriving Repr, DecidableEq

/-- The TypeScript id arguments of type `string | number`; a string is a
    list of characters. -/
inductive IdArg where
  | str (s : List Char)
  | num (n : Int)
deriving Repr, DecidableEq

/-- Value of the decimal digits of a character list, accumulated left to
    right exactly as base-10 positional reading does. -/
def digitsToNat (l : List Char) : Nat :=
  l.foldl (fun acc c => 10 * acc + (c.toNat - 48)) 0

/-- Model of the JavaScript built-in `parseInt(s)` on its decimal
    fragment: read the longest leading run of decimal digits; if there is
    none the result is NaN, modelled as `none`. (Sign, blanks and
    alternative radix prefixes never occur in the id strings this
    application passes, so they are not modelled.) -/
def jsParseInt (s : List Char) : Option Int :=
  let ds := s.takeWhile Char.isDigit
  if ds.isEmpty then none else some (digitsToNat ds)

/-- The id normalisation `typeof id === 'string' ? parseInt(id) : id`
    shared by getTodoById, deleteTodo and toggleComplete. `none` stands
    for NaN. -/
def normalizeId : IdArg → Option Int
  | .str s => jsParseInt s
  | .num n => some n

/-- Strict equality `todo.id === numericId` where the right side may be
    NaN (`none`), which is equal to nothing. -/
def idMatches (nid : Option Int) (tid : Int) : Bool :=
  match nid with
  | some v => tid == v
  | none => false

/-- In-memory state of MockTodoRepository
    (src/infrastructure/adapters/mock/MockTodoRepository.ts): the todos
    array and the sequential nextId counter. -/
structure MockTodoRepository where
  todos : List Todo
  nextId : Int
deriving Repr, DecidableEq

namespace MockTodoRepository

/-- A freshly constructed repository over an empty localStorage slot:
    field initialisers give an empty array and nextId = 1. -/
def fresh : MockTodoRepository := { todos := [], nextId := 1 }

/-- MockTodoRepository.loadFromLocalStorage: replaces `todos` with the
    parsed persisted array. Note that, unlike the user repository, this
    method does not touch `nextId`, which keeps its field-initial value 1. -/
def loadFromLocalStorage (stored : List Todo) : MockTodoRepository :=
  { todos := stored, nextId := 1 }

/-- MockTodoRepository.getTodos: returns a copy of the array. -/
def getTodos (repo : MockTodoRepository) : List Todo :=
  repo.todos

/-- MockTodoRepository.getTodoById: normalises the id with parseInt when
    it is a string, then finds the first matching todo. -/
def getTodoById (repo : MockTodoRepository) (id : IdArg) : Option Todo :=
  repo.todos.find? (fun t => idMatches (normalizeId id) t.id)

/-- MockTodoRepository.createTodo: builds the new todo with id
    `nextId++`, completed `input.completed || false`, createdAt `now` and
    no updatedAt, pushes it and returns it. -/
def createTodo (repo : MockTodoRepository) (input : CreateTodoInput) (now : Date) :
    Todo × MockTodoRepository :=
  let newTodo : Todo :=
    { id := repo.nextId
      title := input.title
      completed := input.completed.getD false
      userId := input.userId
      createdAt := now
      updatedAt := none }
  (newTodo, { todos := repo.todos ++ [newTodo], nextId := repo.nextId + 1 })

/-- Field patch of MockTodoRepository.updateTodo: the conditional object
    spreads. `input.title && ...` is JavaScript truthiness, so an empty
    string is skipped; completed and userId are applied whenever they are
    not undefined; updatedAt is always set to now. -/
def updateFields (input : UpdateTodoInput) (now : Date) (t : Todo) : Todo :=
  { t with
    title :=
      match input.title with
      | some s => if s = "" then t.title else s
      | none => t.title
    completed :=
      match input.completed with
      | some b => b
      | none => t.completed
    userId :=
      match input.userId with
      | some u => some u
      | none => t.userId
    updatedAt := some now }

/-- findIndex followed by in-place replacement: patch the first todo whose
    id matches, return it together with the updated array. -/
def updateFirst (input : UpdateTodoInput) (now : Date) : List Todo → Option Todo × List Todo
  | [] => (none, [])
  | t :: ts =>
    if t.id == input.id then
      let u := updateFields input now t
      (some u, u :: ts)
    else
      let p := updateFirst input now ts
      (p.1, t :: p.2)

/-- MockTodoRepository.updateTodo: null when the id is absent, otherwise
    the patched todo, replaced in place. -/
def updateTodo (repo : MockTodoRepository) (input : UpdateTodoInput) (now : Date) :
    Option Todo × MockTodoRepository :=
  let p := updateFirst input now repo.todos
  (p.1, { repo with todos := p.2 })

/-- MockTodoRepository.deleteTodo: normalises the id, filters it out of
    the array and reports whether the length changed. -/
def deleteTodo (repo : MockTodoRepository) (id : IdArg) : Bool × MockTodoRepository :=
  let nid := normalizeId id
  let remaining := repo.todos.filter (fun t => !(idMatches nid t.id))
  (remaining.length != repo.todos.length, { repo with todos := remaining })

/-- Field flip of MockTodoRepository.toggleComplete: completed is negated
    unconditionally and updatedAt set to now. -/
def toggleFields (now : Date) (t : Todo) : Todo :=
  { t with completed := !t.completed, updatedAt := some now }

/-- findIndex followed by in-place replacement for toggleComplete. -/
def toggleFirst (nid : Option Int) (now : Date) : List Todo → Option Todo × List Todo
  | [] => (none, [])
  | t :: ts =>
    if idMatches nid t.id then
      let u := toggleFields now t
      (some u, u :: ts)
    else
      let p := toggleFirst nid now ts
      (p.1, t :: p.2)

/-- MockTodoRepository.toggleComplete: normalises the id, flips the first
    matching todo and returns it, or null when absent. -/
def toggleComplete (repo : MockTodoRepository) (id : IdArg) (now : Date) :
    Option Todo × MockTodoRepository :=
  let p := toggleFirst (normalizeId id) now repo.todos
  (p.1, { repo with todos := p.2 })

end MockTodoRepository

/-- In-memory state of MockUserRepository
    (src/infrastructure/adapters/mock/MockUserRepository.ts). -/
structure MockUserRepository where
  users : List User
  nextId : Int
deriving Repr, DecidableEq

namespace MockUserRepository

/-- A freshly constructed repository over an empty localStorage slot. -/
def fresh : MockUserRepository := { users := [], nextId := 1 }

/-- MockUserRepository.loadFromLocalStorage: replaces `users` with the
    parsed persisted array and, when it is non-empty, reseeds nextId to
    `Math.max(...ids) + 1` to avoid duplicate ids after a reload. -/
def loadFromLocalStorage (stored : List User) : MockUserRepository :=
  { users := stored
    nextId :=
      match (stored.map (fun u => u.id)).max? with
      | some m => m + 1
      | none => 1 }

/-- MockUserRepository.getUsers. -/
def getUsers (repo : MockUserRepository) : List User :=
  repo.users

/-- MockUserRepository.getUserById: id is a plain number here. -/
def getUserById (repo : MockUserRepository) (id : Int) : Option User :=
  repo.users.find? (fun u => u.id == id)

/-- MockUserRepository.createUser: id `nextId++`, createdAt now, no
    updatedAt. -/
def createUser (repo : MockUserRepository) (input : CreateUserInput) (now : Date) :
    User × MockUserRepository :=
  let newUser : User :=
    { id := repo.nextId
      name := input.name
      email := input.email
      createdAt := now
      updatedAt := none }
  (newUser, { users := repo.users ++ [newUser], nextId := repo.nextId + 1 })

/-- Field patch of MockUserRepository.updateUser: name and email applied
    whenever not undefined; updatedAt always set. -/
def updateUserFields (input : UpdateUserInput) (now : Date) (u : User) : User :=
  { u with
    name :=
      match input.name with
      | some s => s
      | none => u.name
    email :=
      match input.email with
      | some s => s
      | none => u.email
    updatedAt := some now }

/-- findIndex followed by in-place replacement for updateUser. -/
def updateUserFirst (input : UpdateUserInput) (now : Date) : List User → Option User × List User
  | [] => (none, [])
  | u :: us =>
    if u.id == input.id then
      let v := updateUserFields input now u
      (some v, v :: us)
    else
      let p := updateUserFirst input now us
      (p.1, u :: p.2)

/-- MockUserRepository.updateUser: null when the id is absent, otherwise
    the patched user, replaced in place. -/
def updateUser (repo : MockUserRepository) (input : UpdateUserInput) (now : Date) :
    Option User × MockUserRepository :=
  let p := updateUserFirst input now repo.users
  (p.1, { repo with users := p.2 })

/-- MockUserRepository.deleteUser: filters the id out of the array and
    reports whether the length shrank. -/
def deleteUser (repo : MockUserRepository) (id : Int) : Bool × MockUserRepository :=
  let remaining := repo.users.filter (fun u => !(u.id == id))
  (remaining.length != repo.users.length, { repo with users := remaining })

end MockUserRepository

/-- Behaviour of one Apollo client call: either the transport responds
    with a payload, or it raises a transport error with a message. -/
inductive Transport (α : Type) where
  | resp (data : α)
  | thrown (e : String)
deriving Repr, DecidableEq

namespace GraphQLTodoRepository

/-- GraphQLTodoRepository.getTodoById: try/catch around the query; a null
    payload gives null, and a thrown transport error is caught, logged
    and turned into null. -/
def getTodoById (r : Transport (Option Todo)) : Option Todo :=
  match r with
  | .resp d => d
  | .thrown _ => none

/-- GraphQLTodoRepository.createTodo: a null payload raises
    "No se pudo crear el todo"; the catch block logs and rethrows, so
    every failure propagates to the caller. -/
def createTodo (r : Transport (Option Todo)) : Except String Todo :=
  match r with
  | .resp (some t) => .ok t
  | .resp none => .error "No se pudo crear el todo"
  | .thrown e => .error e

/-- GraphQLTodoRepository.updateTodo: try/catch; null payload or thrown
    transport error both become null. -/
def updateTodo (r : Transport (Option Todo)) : Option Todo :=
  match r with
  | .resp d => d
  | .thrown _ => none

/-- GraphQLTodoRepository.deleteTodo: try/catch; the payload boolean is
    returned, and a thrown transport error becomes false. -/
def deleteTodo (r : Transport Bool) : Bool :=
  match r with
  | .resp b => b
  | .thrown _ => false

/-- GraphQLTodoRepository.toggleComplete: try/catch; null payload or
    thrown transport error both become null. -/
def toggleComplete (r : Transport (Option Todo)) : Option Todo :=
  match r with
  | .resp d => d
  | .thrown _ => none

end GraphQLTodoRepository

namespace GraphQLUserRepository

/-- GraphQLUserRepository.getUserById: no try/catch in the source — a
    thrown transport error propagates; a null payload gives null. -/
def getUserById (r : Transport (Option User)) : Except String (Option User) :=
  match r with
  | .resp d => .ok d
  | .thrown e => .error e

/-- GraphQLUserRepository.createUser: no try/catch — a thrown transport
    error propagates. -/
def createUser (r : Transport User) : Except String User :=
  match r with
  | .resp u => .ok u
  | .thrown e => .error e

/-- GraphQLUserRepository.updateUser: no try/catch — a thrown transport
    error propagates; a null payload gives null. -/
def updateUser (r : Transport (Option User)) : Except String (Option User) :=
  match r with
  | .resp d => .ok d
  | .thrown e => .error e

/-- GraphQLUserRepository.deleteUser: no try/catch — a thrown transport
    error propagates. -/
def deleteUser (r : Transport Bool) : Except String Bool :=
  match r with
  | .resp b => .ok b
  | .thrown e => .error e

end GraphQLUserRepository

/-- Outcome of an awaited repository call inside a store action: the
    resolved value, or a raised error caught by the catch block. -/
inductive RepoOutcome (α : Type) where
  | ok (a : α)
  | err (msg : String)
deriving Repr, DecidableEq

/-- Visible state of the Zustand todo store (todoStore): the list, the
    loading flag and the error message. -/
structure TodoStoreState where
  todos : List Todo
  isLoading : Bool
  error : Option String
deriving Repr, DecidableEq

namespace useTodoStore

/-- Every action begins with `set(\x7b isLoading: true, error: null \x7d)`. -/
def actionStart (s : TodoStoreState) : TodoStoreState :=
  { s with isLoading := true, error := none }

/-- useTodoStore.fetchTodos as a function of the awaited getTodos
    outcome. -/
def fetchTodos (s : TodoStoreState) (r : RepoOutcome (List Todo)) : TodoStoreState :=
  let s1 := actionStart s
  match r with
  | .ok l => { s1 with todos := l, isLoading := false }
  | .err m => { s1 with error := some m, isLoading := false }

/-- useTodoStore.addTodo as a function of the awaited createTodo
    outcome. -/
def addTodo (s : TodoStoreState) (r : RepoOutcome Todo) : TodoStoreState :=
  let s1 := actionStart s
  match r with
  | .ok t => { s1 with todos := s1.todos ++ [t], isLoading := false }
  | .err m => { s1 with error := some m, isLoading := false }

/-- useTodoStore.updateTodo as a function of the awaited repository
    updateTodo outcome. When the repository resolves null, the `if` guard
    skips the set call, so neither the list nor isLoading changes. -/
def updateTodo (s : TodoStoreState) (r : RepoOutcome (Option Todo)) : TodoStoreState :=
  let s1 := actionStart s
  match r with
  | .ok (some u) =>
    { s1 with
      todos := s1.todos.map (fun t => if t.id == u.id then u else t)
      isLoading := false }
  | .ok none => s1
  | .err m => { s1 with error := some m, isLoading := false }

/-- Strict equality `todo.id !== id` of the filter inside the store
    deleteTodo, where id may still be a string: a string is strictly
    equal to no number. -/
def strictIdEq : IdArg → Int → Bool
  | .num n, tid => tid == n
  | .str _, _ => false

/-- useTodoStore.deleteTodo as a function of the awaited repository
    deleteTodo outcome. On a false resolution the set call is skipped. -/
def deleteTodo (s : TodoStoreState) (id : IdArg) (r : RepoOutcome Bool) : TodoStoreState :=
  let s1 := actionStart s
  match r with
  | .ok true =>
    { s1 with
      todos := s1.todos.filter (fun t => !(strictIdEq id t.id))
      isLoading := false }
  | .ok false => s1
  | .err m => { s1 with error := some m, isLoading := false }

/-- useTodoStore.toggleTodoComplete as a function of the awaited
    repository toggleComplete outcome. On a null resolution the set call
    is skipped. -/
def toggleTodoComplete (s : TodoStoreState) (r : RepoOutcome (Option Todo)) : TodoStoreState :=
  let s1 := actionStart s
  match r with
  | .ok (some u) =>
    { s1 with
      todos := s1.todos.map (fun t => if t.id == u.id then u else t)
      isLoading := false }
  | .ok none => s1
  | .err m => { s1 with error := some m, isLoading := false }

end useTodoStore

/-- Visible state of the Zustand user store (userStore). -/
structure UserStoreState where
  users : List User
  selectedUser : Option User
  isLoading : Bool
  error : Option String
deriving Repr, DecidableEq

namespace useUserStore

/-- Every action begins with `set(\x7b isLoading: true, error: null \x7d)`. -/
def actionStart (s : UserStoreState) : UserStoreState :=
  { s with isLoading := true, error := none }

/-- useUserStore.fetchUsers as a function of the awaited getUsers
    outcome. -/
def fetchUsers (s : UserStoreState) (r : RepoOutcome (List User)) : UserStoreState :=
  let s1 := actionStart s
  match r with
  | .ok l => { s1 with users := l, isLoading := false }
  | .err m => { s1 with error := some m, isLoading := false }

/-- useUserStore.addUser as a function of the awaited createUser outcome
    (on error the store also rethrows, which does not change state). -/
def addUser (s : UserStoreState) (r : RepoOutcome User) : UserStoreState :=
  let s1 := actionStart s
  match r with
  | .ok u => { s1 with users := s1.users ++ [u], isLoading := false }
  | .err m => { s1 with error := some m, isLoading := false }

/-- useUserStore.updateUser as a function of the awaited repository
    updateUser outcome. When the repository resolves null, the function
    returns before any further set call, so isLoading stays true. -/
def updateUser (s : UserStoreState) (r : RepoOutcome (Option User)) : UserStoreState :=
  let s1 := actionStart s
  match r with
  | .ok (some u) =>
    { s1 with
      users := s1.users.map (fun x => if x.id == u.id then u else x)
      selectedUser :=
        match s1.selectedUser with
        | some sel => if sel.id == u.id then some u else some sel
        | none => none
      isLoading := false }
  | .ok none => s1
  | .err m => { s1 with error := some m, isLoading := false }

/-- useUserStore.deleteUser as a function of the awaited repository
    deleteUser outcome. On a false resolution the set call is skipped;
    on true the entry is filtered out and a matching selection cleared. -/
def deleteUser (s : UserStoreState) (id : Int) (r : RepoOutcome Bool) : UserStoreState :=
  let s1 := actionStart s
  match r with
  | .ok true =>
    { s1 with
      users := s1.users.filter (fun u => !(u.id == id))
      selectedUser :=
        match s1.selectedUser with
        | some sel => if sel.id == id then none else some sel
        | none => none
      isLoading := false }
  | .ok false => s1
  | .err m => { s1 with error := some m, isLoading := false }

end useUserStore

/-- The two simulated adapters side by side, as the application holds
    them: each class owns only its own array and localStorage key
    (mock_users resp. mock_todos). -/
structure AppState where
  userRepo : MockUserRepository
  todoRepo : MockTodoRepository
deriving Repr, DecidableEq

/-- Deleting a user in the combined application state: only the user
    repository participates; MockUserRepository.deleteUser reads and
    writes nothing of the todo repository. -/
def AppState.deleteUser (s : AppState) (id : Int) : Bool × AppState :=
  let p := s.userRepo.deleteUser id
  (p.1, { s with userRepo := p.2 })

/-- Run a sequence of createTodo calls, collecting the returned todos. -/
def runTodoCreates (repo : MockTodoRepository) :
    List (CreateTodoInput × Date) → List Todo × MockTodoRepository
  | [] => ([], repo)
  | (i, now) :: rest =>
    let p := repo.createTodo i now
    let q := runTodoCreates p.2 rest
    (p.1 :: q.1, q.2)

/-- Run a sequence of createUser calls, collecting the returned users. -/
def runUserCreates (repo : MockUserRepository) :
    List (CreateUserInput × Date) → List User × MockUserRepository
  | [] => ([], repo)
  | (i, now) :: rest =>
    let p := repo.createUser i now
    let q := runUserCreates p.2 rest
    (p.1 :: q.1, q.2)

/-- Decimal string form of a natural number, most significant digit
    first. -/
def toDecimalString (n : Nat) : List Char :=
  if h : n < 10 then [Char.ofNat (48 + n)]
  else toDecimalString (n / 10) ++ [Char.ofNat (48 + n % 10)]
decreasing_by
  exact Nat.div_lt_self (Nat.lt_of_lt_of_le (by norm_num) (Nat.le_of_not_lt h)) (by norm_num)

/-! Helper lemmas about decimal strings and parseInt. -/

lemma char_ofNat_digit (d : Nat) (h : d < 10) :
    (Char.ofNat (48 + d)).isDigit = true ∧ (Char.ofNat (48 + d)).toNat = 48 + d := by
  interval_cases d <;> exact ⟨by decide, by decide⟩

lemma toDecimalString_all_digits (n : Nat) :
    ∀ c ∈ toDecimalString n, c.isDigit = true := by
  induction n using Nat.strong_induction_on with
  | _ n ih =>
    rw [toDecimalString]
    split
    · rename_i h
      intro c hc
      simp only [List.mem_singleton] at hc
      subst hc
      exact (char_ofNat_digit n h).1
    · rename_i h
      intro c hc
      rcases List.mem_append.mp hc with hc | hc
      · exact ih (n / 10) (Nat.div_lt_self (by omega) (by norm_num)) c hc
      · simp only [List.mem_singleton] at hc
        subst hc
        exact (char_ofNat_digit (n % 10) (Nat.mod_lt n (by norm_num))).1

lemma takeWhile_of_all {α : Type} (p : α → Bool) :
    ∀ l : List α, (∀ a ∈ l, p a = true) → l.takeWhile p = l := by
  intro l
  induction l with
  | nil => intro _; rfl
  | cons a l ih =>
    intro h
    rw [List.takeWhile_cons]
    simp [h a (List.mem_cons_self a l), ih fun b hb => h b (List.mem_cons_of_mem a hb)]

lemma digitsToNat_append (a : List Char) (c : Char) :
    digitsToNat (a ++ [c]) = 10 * digitsToNat a + (c.toNat - 48) := by
  simp [digitsToNat, List.foldl_append]

lemma digitsToNat_toDecimalString (n : Nat) :
    digitsToNat (toDecimalString n) = n := by
  induction n using Nat.strong_induction_on with
  | _ n ih =>
    rw [toDecimalString]
    split
    · rename_i h
      simp only [digitsToNat, List.foldl_cons, List.foldl_nil]
      rw [(char_ofNat_digit n h).2]
      omega
    · rename_i h
      rw [digitsToNat_append,
        ih (n / 10) (Nat.div_lt_self (by omega) (by norm_num)),
        (char_ofNat_digit (n % 10) (Nat.mod_lt n (by norm_num))).2]
      omega

lemma toDecimalString_ne_nil (n : Nat) : toDecimalString n ≠ [] := by
  rw [toDecimalString]
  split <;> simp

lemma jsParseInt_toDecimalString (n : Nat) :
    jsParseInt (toDecimalString n) = some (n : Int) := by
  simp only [jsParseInt, takeWhile_of_all Char.isDigit _ (toDecimalString_all_digits n)]
  simp [List.isEmpty_iff, toDecimalString_ne_nil n, digitsToNat_toDecimalString n]

lemma normalizeId_decimal (n : Nat) :
    normalizeId (.str (toDecimalString n)) = normalizeId (.num (n : Int)) := by
  simp only [normalizeId, jsParseInt_toDecimalString]

lemma normalizeId_num (v : Int) : normalizeId (.num v) = some v := rfl

lemma idMatches_some (v tid : Int) : idMatches (some v) tid = (tid == v) := rfl

/-! Helper lemmas about the first-match update and toggle walks. -/

lemma updateFirst_not_found (input : UpdateTodoInput) (now : Date) :
    ∀ l : List Todo, (∀ t ∈ l, (t.id == input.id) = false) →
      MockTodoRepository.updateFirst input now l = (none, l) := by
  intro l
  induction l with
  | nil => intro _; rfl
  | cons t ts ih =>
    intro h
    have ht := h t (List.mem_cons_self t ts)
    simp [MockTodoRepository.updateFirst, ht,
      ih fun x hx => h x (List.mem_cons_of_mem t hx)]

lemma updateUserFirst_not_found (input : UpdateUserInput) (now : Date) :
    ∀ l : List User, (∀ u ∈ l, (u.id == input.id) = false) →
      MockUserRepository.updateUserFirst input now l = (none, l) := by
  intro l
  induction l with
  | nil => intro _; rfl
  | cons u us ih =>
    intro h
    have hu := h u (List.mem_cons_self u us)
    simp [MockUserRepository.updateUserFirst, hu,
      ih fun x hx => h x (List.mem_cons_of_mem u hx)]

lemma updateFirst_found (input : UpdateTodoInput) (now : Date) :
    ∀ (l : List Todo) (t : Todo), l.find? (fun x => x.id == input.id) = some t →
      (MockTodoRepository.updateFirst input now l).1 =
        some (MockTodoRepository.updateFields input now t) := by
  intro l
  induction l with
  | nil => intro t h; simp [List.find?] at h
  | cons a ts ih =>
    intro t h
    cases hc : (a.id == input.id) with
    | true =>
      simp only [List.find?, hc] at h
      cases h
      simp [MockTodoRepository.updateFirst, hc]
    | false =>
      simp only [List.find?, hc] at h
      simp [MockTodoRepository.updateFirst, hc, ih t h]

lemma toggleFields_id (now : Date) (t : Todo) :
    (MockTodoRepository.toggleFields now t).id = t.id := rfl

lemma toggleFirst_found (nid : Option Int) (now : Date) :
    ∀ (l : List Todo) (t : Todo), l.find? (fun x => idMatches nid x.id) = some t →
      (MockTodoRepository.toggleFirst nid now l).1 =
          some (MockTodoRepository.toggleFields now t) ∧
        (MockTodoRepository.toggleFirst nid now l).2.find? (fun x => idMatches nid x.id) =
          some (MockTodoRepository.toggleFields now t) := by
  intro l
  induction l with
  | nil => intro t h; simp [List.find?] at h
  | cons a ts ih =>
    intro t h
    cases hc : idMatches nid a.id with
    | true =>
      simp only [List.find?, hc] at h
      cases h
      refine ⟨by simp [MockTodoRepository.toggleFirst, hc], ?_⟩
      have hc2 : idMatches nid (MockTodoRepository.toggleFields now a).id = true := by
        rw [toggleFields_id]; exact hc
      simp [MockTodoRepository.toggleFirst, hc, List.find?, hc2]
    | false =>
      simp only [List.find?, hc] at h
      have ihh := ih t h
      constructor
      · simp [MockTodoRepository.toggleFirst, hc, ihh.1]
      · simp only [MockTodoRepository.toggleFirst]
        rw [if_neg (by simp [hc])]
        simp only [List.find?, hc]
        exact ihh.2

/-! Helper lemmas about deletion by key filtering. -/

lemma filter_key_not_mem {α : Type} (key : α → Int) (v : Int) :
    ∀ l : List α, v ∉ l.map key → l.filter (fun x => !(key x == v)) = l := by
  intro l h
  apply List.filter_eq_self.mpr
  intro a ha
  have hne : key a ≠ v := fun e => h (e ▸ List.mem_map_of_mem key ha)
  simp [hne]

lemma filter_key_mem_length {α : Type} (key : α → Int) (v : Int) :
    ∀ l : List α, (l.map key).Nodup → v ∈ l.map key →
      (l.filter (fun x => !(key x == v))).length + 1 = l.length := by
  intro l
  induction l with
  | nil => simp
  | cons a ts ih =>
    intro hnd hv
    rw [List.map_cons, List.nodup_cons] at hnd
    rw [List.map_cons, List.mem_cons] at hv
    by_cases hc : key a = v
    · have hnot : v ∉ ts.map key := by rw [← hc]; exact hnd.1
      rw [List.filter_cons]
      simp [hc, filter_key_not_mem key v ts hnot]
    · have hv2 : v ∈ ts.map key := by
        rcases hv with hv | hv
        · exact absurd hv.symm hc
        · exact hv
      rw [List.filter_cons]
      have hk : (!(key a == v)) = true := by simp [hc]
      rw [if_pos hk]
      simp only [List.length_cons]
      have := ih hnd.2 hv2
      omega

/-! Concrete sample entities used by witnesses and counterexamples. -/

/-- Sample persisted todo with id 1. -/
def sampleTodo : Todo :=
  { id := 1, title := "Configurar entorno", completed := false, userId := some 1,
    createdAt := 0, updatedAt := none }

/-- Sample persisted todo with id 2. -/
def sampleTodoB : Todo :=
  { id := 2, title := "Optimizar consultas", completed := true, userId := some 2,
    createdAt := 1, updatedAt := none }

/-- Sample persisted user with id 1. -/
def sampleUser : User :=
  { id := 1, name := "Juan Perez", email := "juan@example.com",
    createdAt := 0, updatedAt := none }

/-- Sample persisted user with id 2. -/
def sampleUserB : User :=
  { id := 2, name := "Maria Lopez", email := "maria@example.com",
    createdAt := 0, updatedAt := none }

/-! Claim theorems. -/

/-- Claim C1 (code bug): the simulated task adapter does not reseed its
next-id counter when it reloads a persisted collection — nextId keeps its
field-initial value 1 — so reloading a collection whose maximal id is 1
and creating a new task returns id 1 again, a duplicate of the persisted
id and not strictly greater than it. (The simulated user adapter does
reseed to max id + 1; the task adapter is missing that step.) -/
theorem C1_todoAdapter_reload_create_id_not_greater :
    ((MockTodoRepository.loadFromLocalStorage [sampleTodo]).createTodo
        { title := "nueva tarea", completed := none, userId := none } 7).1.id
      = sampleTodo.id ∧
    ¬ ((MockTodoRepository.loadFromLocalStorage [sampleTodo]).createTodo
        { title := "nueva tarea", completed := none, userId := none } 7).1.id
      > sampleTodo.id :=
  ⟨rfl, by decide⟩

/-- Claim C2 counterexample: the todo store updateTodo action, on a
repository call that resolves to null, completes with isLoading still
true — the store does not return to the idle state. -/
theorem C2_store_loading_counterexample :
    (useTodoStore.updateTodo
        { todos := [], isLoading := false, error := none }
        (.ok none)).isLoading = true := rfl

/-- Claim C2 (amended): every store action begins by setting
loading=true; fetch and create always end with loading=false, and
update, delete and toggle-complete end with loading=false when the
repository resolves non-null/true or raises — but when the repository
resolves null (update/toggle) or false (delete), the reconciliation set
call is skipped and the action completes with loading still true. This
holds for the task store and the user store alike. -/
theorem C2_store_loading_discipline :
    (∀ s, (useTodoStore.actionStart s).isLoading = true) ∧
    (∀ s r, (useTodoStore.fetchTodos s r).isLoading = false) ∧
    (∀ s r, (useTodoStore.addTodo s r).isLoading = false) ∧
    (∀ s u, (useTodoStore.updateTodo s (.ok (some u))).isLoading = false) ∧
    (∀ s m, (useTodoStore.updateTodo s (.err m)).isLoading = false) ∧
    (∀ s, (useTodoStore.updateTodo s (.ok none)).isLoading = true) ∧
    (∀ s id, (useTodoStore.deleteTodo s id (.ok true)).isLoading = false) ∧
    (∀ s id m, (useTodoStore.deleteTodo s id (.err m)).isLoading = false) ∧
    (∀ s id, (useTodoStore.deleteTodo s id (.ok false)).isLoading = true) ∧
    (∀ s u, (useTodoStore.toggleTodoComplete s (.ok (some u))).isLoading = false) ∧
    (∀ s m, (useTodoStore.toggleTodoComplete s (.err m)).isLoading = false) ∧
    (∀ s, (useTodoStore.toggleTodoComplete s (.ok none)).isLoading = true) ∧
    (∀ s, (useUserStore.actionStart s).isLoading = true) ∧
    (∀ s r, (useUserStore.fetchUsers s r).isLoading = false) ∧
    (∀ s r, (useUserStore.addUser s r).isLoading = false) ∧
    (∀ s u, (useUserStore.updateUser s (.ok (some u))).isLoading = false) ∧
    (∀ s m, (useUserStore.updateUser s (.err m)).isLoading = false) ∧
    (∀ s, (useUserStore.updateUser s (.ok none)).isLoading = true) ∧
    (∀ s id, (useUserStore.deleteUser s id (.ok true)).isLoading = false) ∧
    (∀ s id m, (useUserStore.deleteUser s id (.err m)).isLoading = false) ∧
    (∀ s id, (useUserStore.deleteUser s id (.ok false)).isLoading = true) := by
  refine ⟨fun s => rfl, fun s r => ?_, fun s r => ?_, fun s u => rfl, fun s m => rfl,
    fun s => rfl, fun s id => rfl, fun s id m => rfl, fun s id => rfl,
    fun s u => rfl, fun s m => rfl, fun s => rfl,
    fun s => rfl, fun s r => ?_, fun s r => ?_, fun s u => rfl, fun s m => rfl,
    fun s => rfl, fun s id => rfl, fun s id m => rfl, fun s id => rfl⟩ <;>
    cases r <;> rfl

/-- Claim C3 counterexample: the remote user adapter getUserById has no
try/catch, so a raised transport error propagates to the caller instead
of being returned as null. -/
theorem C3_user_getById_raises_counterexample :
    GraphQLUserRepository.getUserById (.thrown "network error")
        = .error "network error" ∧
      GraphQLUserRepository.getUserById (.thrown "network error")
        ≠ Except.ok none :=
  ⟨rfl, fun h => Except.noConfusion h⟩

/-- Claim C3 (amended): only the remote task adapter swallows transport
failures — its getTodoById, updateTodo, deleteTodo and toggleComplete
return null/false on a thrown transport error and on a null ("not
found") payload, while its createTodo propagates every failure. The
remote user adapter has no try/catch at all: it returns null only for a
null payload, and a thrown transport error propagates from every one of
its operations, getUserById, updateUser and deleteUser included. -/
theorem C3_remote_error_swallowing :
    (∀ e, GraphQLTodoRepository.getTodoById (.thrown e) = none) ∧
    (∀ e, GraphQLTodoRepository.updateTodo (.thrown e) = none) ∧
    (∀ e, GraphQLTodoRepository.deleteTodo (.thrown e) = false) ∧
    (∀ e, GraphQLTodoRepository.toggleComplete (.thrown e) = none) ∧
    (∀ e, GraphQLTodoRepository.createTodo (.thrown e) = .error e) ∧
    (GraphQLTodoRepository.createTodo (.resp none) = .error "No se pudo crear el todo") ∧
    (∀ d, GraphQLTodoRepository.getTodoById (.resp d) = d) ∧
    (∀ d, GraphQLTodoRepository.updateTodo (.resp d) = d) ∧
    (∀ b, GraphQLTodoRepository.deleteTodo (.resp b) = b) ∧
    (∀ d, GraphQLTodoRepository.toggleComplete (.resp d) = d) ∧
    (∀ e, GraphQLUserRepository.getUserById (.thrown e) = .error e) ∧
    (∀ e, GraphQLUserRepository.updateUser (.thrown e) = .error e) ∧
    (∀ e, GraphQLUserRepository.deleteUser (.thrown e) = .error e) ∧
    (∀ e, GraphQLUserRepository.createUser (.thrown e) = .error e) ∧
    (∀ d, GraphQLUserRepository.getUserById (.resp d) = .ok d) ∧
    (∀ d, GraphQLUserRepository.updateUser (.resp d) = .ok d) ∧
    (∀ b, GraphQLUserRepository.deleteUser (.resp b) = .ok b) :=
  ⟨fun e => rfl, fun e => rfl, fun e => rfl, fun e => rfl, fun e => rfl, rfl,
    fun d => rfl, fun d => rfl, fun b => rfl, fun d => rfl,
    fun e => rfl, fun e => rfl, fun e => rfl, fun e => rfl,
    fun d => rfl, fun d => rfl, fun b => rfl⟩

/-- Claim C4 counterexample: updating a task whose stored title is "a"
with a provided empty-string title leaves the title "a" — the JavaScript
truthiness guard `input.title && ...` skips the empty string, so a
provided empty title does not replace the stored one. -/
theorem C4_empty_title_counterexample :
    ((MockTodoRepository.mk [sampleTodo] 2).updateTodo
        { id := 1, title := some "", completed := none, userId := none } 5).1.map Todo.title
      = some sampleTodo.title ∧ sampleTodo.title ≠ "" :=
  ⟨rfl, by decide⟩

/-- Claim C4 (amended): for a task present in the simulated adapter and
an update input naming its id, the updated task takes the input value
for each provided field and keeps the old value for each omitted field —
except that a provided empty-string title is treated like an absent
title and the stored title is kept; a provided non-empty title does
replace it. completed and userId are applied whenever provided, id is
unchanged and updatedAt is set. -/
theorem C4_update_partial_patch (repo : MockTodoRepository) (input : UpdateTodoInput)
    (now : Date) (t u : Todo)
    (hfind : repo.todos.find? (fun x => x.id == input.id) = some t)
    (hres : (repo.updateTodo input now).1 = some u) :
    (∀ s, input.title = some s → s ≠ "" → u.title = s) ∧
    (input.title = none → u.title = t.title) ∧
    (input.title = some "" → u.title = t.title) ∧
    (∀ b, input.completed = some b → u.completed = b) ∧
    (input.completed = none → u.completed = t.completed) ∧
    (∀ v, input.userId = some v → u.userId = some v) ∧
    (input.userId = none → u.userId = t.userId) ∧
    u.id = t.id ∧ u.updatedAt = some now := by
  have hu : u = MockTodoRepository.updateFields input now t := by
    have h2 := updateFirst_found input now repo.todos t hfind
    rw [MockTodoRepository.updateTodo] at hres
    simp only [h2] at hres
    exact (Option.some.inj hres).symm
  subst hu
  refine ⟨?_, ?_, ?_, ?_, ?_, ?_, ?_, ?_, rfl⟩
  · intro s hs hne
    simp [MockTodoRepository.updateFields, hs, hne]
  · intro hn; simp [MockTodoRepository.updateFields, hn]
  · intro hs; simp [MockTodoRepository.updateFields, hs]
  · intro b hb; simp [MockTodoRepository.updateFields, hb]
  · intro hn; simp [MockTodoRepository.updateFields, hn]
  · intro v hv; simp [MockTodoRepository.updateFields, hv]
  · intro hn; simp [MockTodoRepository.updateFields, hn]
  · rfl

/-- Claim C4 witness: the amended update theorem applied to the sample
task and a concrete input providing a non-empty title and a completed
flag. -/
theorem C4_update_partial_patch_witness :
    ((MockTodoRepository.mk [sampleTodo] 2).todos.find?
        (fun x => x.id == (1 : Int)) = some sampleTodo) ∧
    (((MockTodoRepository.mk [sampleTodo] 2).updateTodo
        { id := 1, title := some "b", completed := some true, userId := none } 5).1
      = some { sampleTodo with title := "b", completed := true, updatedAt := some 5 }) ∧
    (∀ s, (some "b" : Option String) = some s → s ≠ "" →
      ({ sampleTodo with title := "b", completed := true, updatedAt := some 5 } : Todo).title = s) :=
  ⟨rfl, rfl,
    (C4_update_partial_patch (MockTodoRepository.mk [sampleTodo] 2)
      { id := 1, title := some "b", completed := some true, userId := none } 5
      sampleTodo { sampleTodo with title := "b", completed := true, updatedAt := some 5 }
      rfl rfl).1⟩

/-- Claim C5: toggling a present task twice restores its completed flag
to its value before the first call, and each of the two calls sets
updatedAt to the clock of that call. -/
theorem C5_toggle_twice_restores (repo : MockTodoRepository) (id : Int)
    (now1 now2 : Date) (t : Todo)
    (hfind : repo.todos.find? (fun x => idMatches (some id) x.id) = some t) :
    ((repo.toggleComplete (.num id) now1).1.map Todo.completed = some (!t.completed)) ∧
    ((repo.toggleComplete (.num id) now1).1.map Todo.updatedAt = some (some now1)) ∧
    (((repo.toggleComplete (.num id) now1).2.toggleComplete (.num id) now2).1.map Todo.completed
      = some t.completed) ∧
    (((repo.toggleComplete (.num id) now1).2.toggleComplete (.num id) now2).1.map Todo.updatedAt
      = some (some now2)) := by
  have h1 := toggleFirst_found (some id) now1 repo.todos t hfind
  have h2 := toggleFirst_found (some id) now2
    (MockTodoRepository.toggleFirst (some id) now1 repo.todos).2
    (MockTodoRepository.toggleFields now1 t) h1.2
  refine ⟨?_, ?_, ?_, ?_⟩ <;>
    simp [MockTodoRepository.toggleComplete, normalizeId_num, h1.1, h2.1,
      MockTodoRepository.toggleFields]

/-- Claim C5 witness: the double-toggle theorem applied to the sample
repository at id 1. -/
theorem C5_toggle_twice_restores_witness :
    ((MockTodoRepository.mk [sampleTodo, sampleTodoB] 3).todos.find?
        (fun x => idMatches (some 1) x.id) = some sampleTodo) ∧
    ((((MockTodoRepository.mk [sampleTodo, sampleTodoB] 3).toggleComplete
          (.num 1) 4).2.toggleComplete (.num 1) 9).1.map Todo.completed
      = some sampleTodo.completed) :=
  ⟨rfl, (C5_toggle_twice_restores (MockTodoRepository.mk [sampleTodo, sampleTodoB] 3)
    1 4 9 sampleTodo rfl).2.2.1⟩

/-- Claim C6: update with an id that no stored entity carries returns
null and leaves the repository exactly as it was, for the simulated task
adapter and the simulated user adapter alike. -/
theorem C6_update_unknown_id_noop (repo : MockTodoRepository) (input : UpdateTodoInput)
    (now : Date) (urepo : MockUserRepository) (uinput : UpdateUserInput) (unow : Date)
    (h : ∀ t ∈ repo.todos, t.id ≠ input.id)
    (hu : ∀ x ∈ urepo.users, x.id ≠ uinput.id) :
    repo.updateTodo input now = (none, repo) ∧
      urepo.updateUser uinput unow = (none, urepo) := by
  constructor
  · have e := updateFirst_not_found input now repo.todos (fun t ht => by simp [h t ht])
    simp [MockTodoRepository.updateTodo, e]
  · have e := updateUserFirst_not_found uinput unow urepo.users (fun x hx => by simp [hu x hx])
    simp [MockUserRepository.updateUser, e]

/-- Claim C6 witness: updating id 99, absent from both sample
repositories, is a no-op returning null in each adapter. -/
theorem C6_update_unknown_id_noop_witness :
    (∀ t ∈ [sampleTodo], t.id ≠ (99 : Int)) ∧
    (∀ x ∈ [sampleUser], x.id ≠ (99 : Int)) ∧
    ((MockTodoRepository.mk [sampleTodo] 2).updateTodo
        { id := 99, title := none, completed := none, userId := none } 5
      = (none, MockTodoRepository.mk [sampleTodo] 2)) ∧
    ((MockUserRepository.mk [sampleUser] 2).updateUser
        { id := 99, name := none, email := none } 5
      = (none, MockUserRepository.mk [sampleUser] 2)) := by
  have h := C6_update_unknown_id_noop (MockTodoRepository.mk [sampleTodo] 2)
    { id := 99, title := none, completed := none, userId := none } 5
    (MockUserRepository.mk [sampleUser] 2) { id := 99, name := none, email := none } 5
    (by decide) (by decide)
  exact ⟨by decide, by decide, h.1, h.2⟩

/-- Claim C7: in a repository whose stored ids are pairwise distinct,
delete with an absent id returns false and changes nothing, while delete
with a present id returns true, shrinks the collection by exactly one,
keeps every entity with a different id and removes every entity with the
deleted id; for the task and the user simulated adapter alike. -/
theorem C7_delete_semantics (repo : MockTodoRepository) (id : Int)
    (urepo : MockUserRepository) (uid : Int)
    (hnd : (repo.todos.map Todo.id).Nodup)
    (hund : (urepo.users.map User.id).Nodup) :
    ((id ∉ repo.todos.map Todo.id → repo.deleteTodo (.num id) = (false, repo)) ∧
     (id ∈ repo.todos.map Todo.id →
        (repo.deleteTodo (.num id)).1 = true ∧
        (repo.deleteTodo (.num id)).2.todos.length + 1 = repo.todos.length ∧
        (∀ t ∈ repo.todos, t.id ≠ id → t ∈ (repo.deleteTodo (.num id)).2.todos) ∧
        (∀ t ∈ (repo.deleteTodo (.num id)).2.todos, t ∈ repo.todos ∧ t.id ≠ id))) ∧
    ((uid ∉ urepo.users.map User.id → urepo.deleteUser uid = (false, urepo)) ∧
     (uid ∈ urepo.users.map User.id →
        (urepo.deleteUser uid).1 = true ∧
        (urepo.deleteUser uid).2.users.length + 1 = urepo.users.length ∧
        (∀ u ∈ urepo.users, u.id ≠ uid → u ∈ (urepo.deleteUser uid).2.users) ∧
        (∀ u ∈ (urepo.deleteUser uid).2.users, u ∈ urepo.users ∧ u.id ≠ uid))) := by
  constructor
  · constructor
    · intro hmem
      have e := filter_key_not_mem Todo.id id repo.todos hmem
      simp only [MockTodoRepository.deleteTodo, normalizeId_num, idMatches_some] at e ⊢
      simp [e]
    · intro hmem
      have hlen := filter_key_mem_length Todo.id id repo.todos hnd hmem
      simp only [MockTodoRepository.deleteTodo, normalizeId_num, idMatches_some] at hlen ⊢
      refine ⟨?_, hlen, ?_, ?_⟩
      · rw [bne_iff_ne]; omega
      · intro t ht hne
        simp [List.mem_filter, ht, hne]
      · intro t ht
        rw [List.mem_filter] at ht
        refine ⟨ht.1, ?_⟩
        have := ht.2
        simpa using this
  · constructor
    · intro hmem
      have e := filter_key_not_mem User.id uid urepo.users hmem
      simp only [MockUserRepository.deleteUser] at e ⊢
      simp [e]
    · intro hmem
      have hlen := filter_key_mem_length User.id uid urepo.users hund hmem
      simp only [MockUserRepository.deleteUser] at hlen ⊢
      refine ⟨?_, hlen, ?_, ?_⟩
      · rw [bne_iff_ne]; omega
      · intro u hu hne
        simp [List.mem_filter, hu, hne]
      · intro u hu
        rw [List.mem_filter] at hu
        refine ⟨hu.1, ?_⟩
        have := hu.2
        simpa using this

/-- Claim C7 witness: the delete theorem applied to the two sample
repositories, deleting absent id 99 and present id 1. -/
theorem C7_delete_semantics_witness :
    (((MockTodoRepository.mk [sampleTodo, sampleTodoB] 3).todos.map Todo.id).Nodup) ∧
    ((1 : Int) ∈ (MockTodoRepository.mk [sampleTodo, sampleTodoB] 3).todos.map Todo.id) ∧
    (((MockTodoRepository.mk [sampleTodo, sampleTodoB] 3).deleteTodo (.num 1)).1 = true) ∧
    ((MockUserRepository.mk [sampleUser] 2).deleteUser 99
      = (false, MockUserRepository.mk [sampleUser] 2)) := by
  have h := C7_delete_semantics (MockTodoRepository.mk [sampleTodo, sampleTodoB] 3) 1
    (MockUserRepository.mk [sampleUser] 2) 99 (by decide) (by decide)
  exact ⟨by decide, by decide, (h.1.2 (by decide)).1, h.2.1 (by decide)⟩

/-- The list of n consecutive integers start, start+1, ..., start+n-1:
    the id sequence a sequential counter hands out. -/
def seqIds (start : Int) : Nat → List Int
  | 0 => []
  | n + 1 => start :: seqIds (start + 1) n

lemma seqIds_chain_lt (start : Int) :
    ∀ n : Nat, (seqIds start n).Chain' (fun a b => a < b) := by
  intro n
  induction n generalizing start with
  | zero => exact List.chain'_nil
  | succ n ih =>
    cases n with
    | zero => simp [seqIds]
    | succ m =>
      rw [seqIds, seqIds]
      exact List.Chain'.cons (by omega) (by rw [← seqIds]; exact ih (start + 1))

lemma runTodoCreates_spec (inputs : List (CreateTodoInput × Date)) :
    ∀ repo : MockTodoRepository,
      (runTodoCreates repo inputs).1.map Todo.id = seqIds repo.nextId inputs.length ∧
      (runTodoCreates repo inputs).1.map Todo.updatedAt = inputs.map (fun _ => none) ∧
      (runTodoCreates repo inputs).1.map Todo.createdAt = inputs.map Prod.snd := by
  induction inputs with
  | nil => intro repo; exact ⟨rfl, rfl, rfl⟩
  | cons p rest ih =>
    intro repo
    obtain ⟨i, now⟩ := p
    have ihr := ih (repo.createTodo i now).2
    refine ⟨?_, ?_, ?_⟩
    · simp only [runTodoCreates, List.map_cons, List.length_cons, seqIds, List.cons.injEq]
      exact ⟨rfl, ihr.1⟩
    · simp only [runTodoCreates, List.map_cons, List.cons.injEq]
      exact ⟨rfl, ihr.2.1⟩
    · simp only [runTodoCreates, List.map_cons, List.cons.injEq]
      exact ⟨rfl, ihr.2.2⟩

lemma runUserCreates_spec (inputs : List (CreateUserInput × Date)) :
    ∀ repo : MockUserRepository,
      (runUserCreates repo inputs).1.map User.id = seqIds repo.nextId inputs.length ∧
      (runUserCreates repo inputs).1.map User.updatedAt = inputs.map (fun _ => none) ∧
      (runUserCreates repo inputs).1.map User.createdAt = inputs.map Prod.snd := by
  induction inputs with
  | nil => intro repo; exact ⟨rfl, rfl, rfl⟩
  | cons p rest ih =>
    intro repo
    obtain ⟨i, now⟩ := p
    have ihr := ih (repo.createUser i now).2
    refine ⟨?_, ?_, ?_⟩
    · simp only [runUserCreates, List.map_cons, List.length_cons, seqIds, List.cons.injEq]
      exact ⟨rfl, ihr.1⟩
    · simp only [runUserCreates, List.map_cons, List.cons.injEq]
      exact ⟨rfl, ihr.2.1⟩
    · simp only [runUserCreates, List.map_cons, List.cons.injEq]
      exact ⟨rfl, ihr.2.2⟩

/-- Claim C8: on a freshly constructed simulated adapter (empty
collection, counter at 1) any sequence of create operations returns
entities whose ids are exactly 1, 2, 3, ... in order, each with
createdAt set to the clock of its call and with updatedAt absent; for
the task and the user adapter alike. -/
theorem C8_fresh_create_sequence (inputs : List (CreateTodoInput × Date))
    (uinputs : List (CreateUserInput × Date)) :
    ((runTodoCreates MockTodoRepository.fresh inputs).1.map Todo.id
        = seqIds 1 inputs.length) ∧
    ((runTodoCreates MockTodoRepository.fresh inputs).1.map Todo.id).Chain'
        (fun a b => a < b) ∧
    ((runTodoCreates MockTodoRepository.fresh inputs).1.map Todo.updatedAt
        = inputs.map fun _ => none) ∧
    ((runTodoCreates MockTodoRepository.fresh inputs).1.map Todo.createdAt
        = inputs.map Prod.snd) ∧
    ((runUserCreates MockUserRepository.fresh uinputs).1.map User.id
        = seqIds 1 uinputs.length) ∧
    ((runUserCreates MockUserRepository.fresh uinputs).1.map User.updatedAt
        = uinputs.map fun _ => none) ∧
    ((runUserCreates MockUserRepository.fresh uinputs).1.map User.createdAt
        = uinputs.map Prod.snd) := by
  have ht := runTodoCreates_spec inputs MockTodoRepository.fresh
  have hu := runUserCreates_spec uinputs MockUserRepository.fresh
  refine ⟨ht.1, ?_, ht.2.1, ht.2.2, hu.1, hu.2.1, hu.2.2⟩
  rw [ht.1]
  exact seqIds_chain_lt 1 inputs.length

/-- Claim C9: deleting any user in the combined application state leaves
the simulated task repository untouched: the task list, and with it the
userId reference carried by every task — orphaned or not — is exactly
what it was before the deletion. -/
theorem C9_delete_user_preserves_tasks (s : AppState) (id : Int) :
    (s.deleteUser id).2.todoRepo = s.todoRepo ∧
    (s.deleteUser id).2.todoRepo.todos = s.todoRepo.todos ∧
    (s.deleteUser id).2.todoRepo.todos.map Todo.userId
      = s.todoRepo.todos.map Todo.userId :=
  ⟨rfl, rfl, rfl⟩

/-- Claim C10: in the simulated task adapter the id-taking operations
getTodoById, deleteTodo and toggleComplete normalise a string id by
integer parsing, so the decimal-string form of any natural number n
behaves identically — same result and same resulting state — to the
number n itself. -/
theorem C10_string_id_normalization (repo : MockTodoRepository) (n : Nat) (now : Date) :
    repo.getTodoById (.str (toDecimalString n)) = repo.getTodoById (.num (n : Int)) ∧
    repo.deleteTodo (.str (toDecimalString n)) = repo.deleteTodo (.num (n : Int)) ∧
    repo.toggleComplete (.str (toDecimalString n)) now
      = repo.toggleComplete (.num (n : Int)) now := by
  have h := normalizeId_decimal n
  refine ⟨?_, ?_, ?_⟩ <;>
    simp only [MockTodoRepository.getTodoById, MockTodoRepository.deleteTodo,
      MockTodoRepository.toggleComplete, h]

end FrontGraphQL
